import Mathlib

/-!
# Verification of the libmatrix worker (src/libmatrix.cpp)

Shallow embedding of the worker-side command server of libmatrix.  The C++
source is a single file: six command handlers (`new_matrix`, `new_vector`,
`add_evec`, `get_vector`, `new_map`, `new_graph`), four process-wide registry
arrays (`MAPS`, `VECTORS`, `GRAPHS`, `MATRICES`), a function-pointer dispatch
table `FTABLE`, an `eventloop` that broadcasts one command byte per round, and
a `main` with the `info` and `eventloop` modes.

Modelling decisions, each tied to the source:
* One worker is modelled at a time: `St` holds the worker's rank
  (`intercomm.Get_rank()`) and its four registries.  The registries store
  `Teuchos::RCP` smart pointers in the source; for vectors (the only objects
  mutated after creation, via `sumIntoGlobalValue` through the pointer) the
  pointer indirection is kept explicitly: `St.vectors` is the registry array
  of references and `St.vecStore` is the heap those references point into.
  Maps, graphs and matrices are immutable once stored, so they are held by
  value.
* Wire exchanges are recorded as a trace of `Evt` events carrying the MPI
  datatype kind (`Dty`) and the element count the worker posts, exactly as the
  `Bcast`/`Scatter`/`Scatterv`/`Gather`/`Gatherv`/`Recv` calls in the source;
  outgoing collectives (`Gather`, `Gatherv`) also record the contributed
  values.  The data a round delivers to the worker is the handler's input.
* `scalar_t` is `double` in the source; values are modelled as `ℚ` (the
  claims under study are about which entries hold which values, not about
  rounding).  `handle_t` is a C `int`, modelled as `ℤ`; the `size_t` counts
  are modelled as `ℕ`.
* Registry lookup `TABLE[h]` (`Teuchos::Array::operator[]`, bounds-checked,
  out of range fatal — the spec's `InvalidHandle`) is modelled as `resolve`
  returning `Except`.
* The external Tpetra library is out of scope for the repository; its calls
  are modelled at the call boundary by their documented contracts:
  `vector_t(map)` zero-fills, `sumIntoGlobalValue` adds into the owned entry
  (and ignores a global index the map does not own), `CrsGraph` records each
  `insertGlobalIndices(globalRow, cols)` call in order, `fillComplete` seals.
-/

/-- MPI datatype kinds used on the wire, one per `MPI_*` constant of the
source (`MPI_SCALAR = MPI::DOUBLE`, `MPI_HANDLE = MPI::INT`,
`MPI_SIZE = MPI::INT`, `MPI_LOCAL = MPI::INT`, `MPI_GLOBAL = MPI::LONG`),
plus the `MPI::CHAR` command byte of the event loop. -/
inductive Dty where
  | scalar
  | handle
  | size
  | localIdx
  | globalIdx
  | char
deriving DecidableEq

/-- Collective / point-to-point operation kinds of the wire protocol. -/
inductive OpKind where
  | bcast
  | scatter
  | scatterv
  | gather
  | gatherv
  | recv
  | disc
deriving DecidableEq

/-- One wire event as seen from the worker: incoming operations record the
datatype and the receive count the worker posts; outgoing gathers record the
values the worker contributes.  `disconnect` models
`intercomm.Disconnect()`. -/
inductive Evt where
  | bcastIn (d : Dty) (n : Nat)
  | scatterIn (d : Dty) (n : Nat)
  | scattervIn (d : Dty) (n : Nat)
  | recvIn (d : Dty) (n : Nat)
  | gatherOut (d : Dty) (vals : List Int)
  | gathervOut (d : Dty) (vals : List ℚ)
  | disconnect
deriving DecidableEq

/-- Worker-fatal errors: `invalidHandle` is the spec's InvalidHandle
(out-of-range registry access, fatal, no recovery); `desync` is the spec's
ProtocolDesync (a round whose data does not have the shape the command's
handler reads). -/
inductive Err where
  | invalidHandle
  | desync
deriving DecidableEq

/-- A Tpetra map (`map_t`): global size and the list of global element ids
owned by this worker (`elementList`, in the order received). -/
structure MapObj where
  size : Nat
  elems : List Int
deriving DecidableEq

/-- A Tpetra vector (`vector_t`): the map it was built on (its element list)
and one scalar slot per locally owned element. -/
structure VecObj where
  elems : List Int
  data : List ℚ
deriving DecidableEq

/-- A Tpetra graph (`graph_t`): the owning map's element list, the per-row
count hint passed to the constructor, the `insertGlobalIndices` calls made
(global row id, column ids) in call order, and the `fillComplete` flag. -/
structure GraphObj where
  mapElems : List Int
  numcols : List Nat
  rows : List (Int × List Int)
  fillCompleted : Bool
deriving DecidableEq

/-- A Tpetra matrix (`matrix_t`): built from a sealed graph, otherwise
opaque (no command mutates matrix values). -/
structure MatObj where
  graph : GraphObj
deriving DecidableEq

/-- Per-worker state: the worker's rank on the inter-group channel and the
four registry tables (`MAPS`, `VECTORS`, `GRAPHS`, `MATRICES`).  `vectors`
holds references into `vecStore`, mirroring the `RCP` indirection of
`Teuchos::Array<Teuchos::RCP<vector_t>>`. -/
structure St where
  myrank : Nat
  maps : List MapObj
  vectors : List Nat
  vecStore : List VecObj
  graphs : List GraphObj
  matrices : List MatObj
deriving DecidableEq

/-- Registries are process-wide state, initialized empty at process start. -/
def initState (myrank : Nat) : St :=
  { myrank := myrank
    maps := []
    vectors := []
    vecStore := []
    graphs := []
    matrices := [] }

/-- Registry lookup `TABLE[h]`: the stored object for an in-bounds handle,
the spec's InvalidHandle error otherwise (out-of-range access to
`Teuchos::Array` is fatal). -/
def resolve {α : Type} (table : List α) (h : Int) : Except Err α :=
  if hh : 0 ≤ h ∧ h.toNat < table.length then .ok (table.get ⟨h.toNat, hh.2⟩)
  else .error .invalidHandle

/-- Tpetra `map->getLocalElement(g)`: the local index of global id `g`
(first occurrence in the element list), if owned. -/
def getLocalElement : List Int → Int → Option Nat
  | [], _ => none
  | g :: rest, i => if g = i then some 0 else (getLocalElement rest i).map (· + 1)

/-- Tpetra `vec->sumIntoGlobalValue(g, x)`: add `x` into the locally owned
entry for global id `g`; a non-owned id is ignored. -/
def sumIntoGlobalValue (v : VecObj) (g : Int) (x : ℚ) : VecObj :=
  match getLocalElement v.elems g with
  | some p => { v with data := v.data.set p (v.data.getD p 0 + x) }
  | none => v

/-- Tpetra `new graph_t(map, numcols)`: fresh unsealed graph, no insertions
yet. -/
def graphNew (mapElems : List Int) (numcols : List Nat) : GraphObj :=
  { mapElems := mapElems, numcols := numcols, rows := [], fillCompleted := false }

/-- Tpetra `graph->insertGlobalIndices(row, cols)`: record the insertion, in
call order.  `row` is a global row id (the first argument of
`insertGlobalIndices` is a `global_t`). -/
def insertGlobalIndices (g : GraphObj) (row : Int) (cols : List Int) : GraphObj :=
  { g with rows := g.rows ++ [(row, cols)] }

/-- Tpetra `graph->fillComplete()`: seal the graph. -/
def fillComplete (g : GraphObj) : GraphObj :=
  { g with fillCompleted := true }

/-- The insertion loop of `new_graph`: for each per-row count `n` in turn,
insert the next `n` items of the flat column buffer into global row `irow`
(the loop counter), advancing the running offset (`offset += size` is
modelled by dropping the consumed prefix). -/
def insertRows (g : GraphObj) (irow : Int) (items : List Int) : List Nat → GraphObj
  | [] => g
  | n :: rest => insertRows (insertGlobalIndices g irow (items.take n)) (irow + 1) (items.drop n) rest

/-- `new_map`: broadcast the map size, scatter this worker's element count,
scatterv that many global element ids, build the map, append it to `MAPS`,
gather back the handle (the table length before the append). -/
def new_map (size ndofs : Nat) (elems : List Int) (st : St) :
    Except Err (St × List Evt) :=
  let imap := st.maps.length
  .ok ({ st with maps := st.maps ++ [⟨size, elems.take ndofs⟩] },
    [.bcastIn .size 1, .scatterIn .size 1, .scattervIn .globalIdx ndofs,
     .gatherOut .handle [Int.ofNat imap]])

/-- `new_vector`: broadcast the map handle, resolve it (`MAPS[imap]`), build
a zero-filled vector on that map, append it to `VECTORS`, gather back the
handle. -/
def new_vector (imap : Int) (st : St) : Except Err (St × List Evt) :=
  let ivec := st.vectors.length
  match resolve st.maps imap with
  | .error e => .error e
  | .ok m =>
    .ok ({ st with
             vectors := st.vectors ++ [st.vecStore.length]
             vecStore := st.vecStore ++ [⟨m.elems, List.replicate m.elems.length 0⟩] },
      [.bcastIn .handle 1, .gatherOut .handle [Int.ofNat ivec]])

/-- `new_graph`: broadcast the map handle, resolve it; `nrows` is the map's
local element count (`getNodeNumElements`); scatterv `nrows` per-row column
counts, sum them to `nitems`, scatterv `nitems` column ids; run the insertion
loop, seal, append to `GRAPHS`, gather back the handle. -/
def new_graph (imap : Int) (numcolsIn : List Nat) (itemsIn : List Int) (st : St) :
    Except Err (St × List Evt) :=
  let igraph := st.graphs.length
  match resolve st.maps imap with
  | .error e => .error e
  | .ok m =>
    let nrows := m.elems.length
    let numcols := numcolsIn.take nrows
    let nitems := numcols.sum
    let items := itemsIn.take nitems
    let graph := fillComplete (insertRows (graphNew m.elems numcols) 0 items numcols)
    .ok ({ st with graphs := st.graphs ++ [graph] },
      [.bcastIn .handle 1, .scattervIn .size nrows, .scattervIn .globalIdx nitems,
       .gatherOut .handle [Int.ofNat igraph]])

/-- `add_evec`: broadcast the target rank; a worker whose rank differs
returns at once.  The target receives the vector handle, the item count, the
global indices and the values point-to-point, resolves `VECTORS[ivec]`, and
sums each value into the vector at its global index. -/
def add_evec (rank : Nat) (ivec : Int) (nitems : Nat) (idx : List Int)
    (vals : List ℚ) (st : St) : Except Err (St × List Evt) :=
  if rank = st.myrank then
    match resolve st.vectors ivec with
    | .error e => .error e
    | .ok r =>
      let v := st.vecStore.getD r ⟨[], []⟩
      let v2 := (List.zip (idx.take nitems) (vals.take nitems)).foldl
        (fun w q => sumIntoGlobalValue w q.1 q.2) v
      .ok ({ st with vecStore := st.vecStore.set r v2 },
        [.bcastIn .size 1, .recvIn .handle 1, .recvIn .size 1,
         .recvIn .globalIdx nitems, .recvIn .scalar nitems])
  else
    .ok (st, [.bcastIn .size 1])

/-- `get_vector`: broadcast the vector handle, resolve it, gatherv the
locally owned values (`getData`). -/
def get_vector (ivec : Int) (st : St) : Except Err (St × List Evt) :=
  match resolve st.vectors ivec with
  | .error e => .error e
  | .ok r =>
    let v := st.vecStore.getD r ⟨[], []⟩
    .ok (st, [.bcastIn .handle 1, .gathervOut .scalar v.data])

/-- `new_matrix`: broadcast the graph handle, resolve it (`GRAPHS[igraph]`),
build a matrix on that graph, append it to `MATRICES`, gather back the
handle. -/
def new_matrix (igraph : Int) (st : St) : Except Err (St × List Evt) :=
  let imat := st.matrices.length
  match resolve st.graphs igraph with
  | .error e => .error e
  | .ok g =>
    .ok ({ st with matrices := st.matrices ++ [⟨g⟩] },
      [.bcastIn .handle 1, .gatherOut .handle [Int.ofNat imat]])

/-- The data one command round delivers to this worker, one variant per
command (the wire shape of each command is fixed; a round whose data does not
match the dispatched handler is the spec's ProtocolDesync). -/
inductive CmdInput where
  | newMatrix (igraph : Int)
  | newVector (imap : Int)
  | addEvec (rank : Nat) (ivec : Int) (nitems : Nat) (idx : List Int) (vals : List ℚ)
  | getVector (ivec : Int)
  | newMap (size ndofs : Nat) (elems : List Int)
  | newGraph (imap : Int) (numcols : List Nat) (items : List Int)
deriving DecidableEq

/-- `FTABLE` entry for `new_matrix`. -/
def run_new_matrix : CmdInput → St → Except Err (St × List Evt)
  | .newMatrix igraph, st => new_matrix igraph st
  | _, _ => .error .desync

/-- `FTABLE` entry for `new_vector`. -/
def run_new_vector : CmdInput → St → Except Err (St × List Evt)
  | .newVector imap, st => new_vector imap st
  | _, _ => .error .desync

/-- `FTABLE` entry for `add_evec`. -/
def run_add_evec : CmdInput → St → Except Err (St × List Evt)
  | .addEvec rank ivec nitems idx vals, st => add_evec rank ivec nitems idx vals st
  | _, _ => .error .desync

/-- `FTABLE` entry for `get_vector`. -/
def run_get_vector : CmdInput → St → Except Err (St × List Evt)
  | .getVector ivec, st => get_vector ivec st
  | _, _ => .error .desync

/-- `FTABLE` entry for `new_map`. -/
def run_new_map : CmdInput → St → Except Err (St × List Evt)
  | .newMap size ndofs elems, st => new_map size ndofs elems st
  | _, _ => .error .desync

/-- `FTABLE` entry for `new_graph`. -/
def run_new_graph : CmdInput → St → Except Err (St × List Evt)
  | .newGraph imap numcols items, st => new_graph imap numcols items st
  | _, _ => .error .desync

/-- The dispatch table, in the source's `TOKENS` order:
`new_matrix, new_vector, add_evec, get_vector, new_map, new_graph`. -/
def FTABLE : List (CmdInput → St → Except Err (St × List Evt)) :=
  [run_new_matrix, run_new_vector, run_add_evec, run_get_vector,
   run_new_map, run_new_graph]

/-- `NTOKENS`: the dispatch table length. -/
def NTOKENS : Nat := FTABLE.length

/-- One round as broadcast by the controller: the command byte and the data
the round carries. -/
structure Round where
  code : Nat
  input : CmdInput
deriving DecidableEq

/-- Outcome of running the event loop on a finite script: `terminated` (an
out-of-range code was seen, the channel was disconnected), `blocked` (the
script ended with the worker still waiting for the next broadcast), or
`failed` (a handler hit a fatal error and the worker died). -/
inductive RunResult where
  | terminated (st : St) (trace : List Evt)
  | blocked (st : St) (trace : List Evt)
  | failed (e : Err) (trace : List Evt)
deriving DecidableEq

/-- Prepend already-performed wire events to a run outcome. -/
def withTrace (tr : List Evt) : RunResult → RunResult
  | .terminated st t => .terminated st (tr ++ t)
  | .blocked st t => .blocked st (tr ++ t)
  | .failed e t => .failed e (tr ++ t)

/-- The dispatch loop of `eventloop`: per round, receive the broadcast
command byte; a code outside the table ends the session (break, then
`intercomm.Disconnect()`); otherwise `FTABLE[c]` is invoked and the loop
continues. -/
def eventloop : List Round → St → RunResult
  | [], st => .blocked st []
  | r :: rest, st =>
    match FTABLE[r.code]? with
    | none => .terminated st [.bcastIn .char 1, .disconnect]
    | some f =>
      match f r.input st with
      | .error e => .failed e [.bcastIn .char 1]
      | .ok (st2, tr) => withTrace (.bcastIn .char 1 :: tr) (eventloop rest st2)

/-- The three ways of invoking the executable. -/
inductive CliArg where
  | info
  | eventloop
  | other
deriving DecidableEq

/-- The `main` of the source (named `mainEntry` here, since `main` is the
reserved program entry point in Lean): `info` prints the type widths and
exits 0; `eventloop` runs the dispatch loop and exits 0 once it terminates (a
blocked or dead worker never returns, hence `none`); anything else prints
usage and exits 1. -/
def mainEntry : CliArg → List Round → St → Option Nat
  | .info, _, _ => some 0
  | .eventloop, rounds, st =>
    match eventloop rounds st with
    | .terminated _ _ => some 0
    | _ => none
  | .other, _, _ => some 1

/-- Bit width of each wire datatype on the build platform (LP64, the
platform the source targets): `MPI_SCALAR = MPI::DOUBLE` (64),
`MPI_HANDLE = MPI::INT` (32), `MPI_SIZE = MPI::INT` (32),
`MPI_LOCAL = MPI::INT` (32), `MPI_GLOBAL = MPI::LONG` (64), and the
`MPI::CHAR` command byte (8). -/
def mpiWidth : Dty → Nat
  | .scalar => 64
  | .handle => 32
  | .size => 32
  | .localIdx => 32
  | .globalIdx => 64
  | .char => 8

/-- Bit widths printed by `main` in `info` mode: `sizeof(local_t) << 3`,
`sizeof(global_t) << 3`, `sizeof(size_t) << 3`, `sizeof(handle_t) << 3`,
`sizeof(scalar_t) << 3` with `local_t = int`, `global_t = long`,
`handle_t = int`, `scalar_t = double` on LP64; no width is printed for the
command byte. -/
def infoWidth : Dty → Option Nat
  | .scalar => some 64
  | .handle => some 32
  | .size => some 64
  | .localIdx => some 32
  | .globalIdx => some 64
  | .char => none

/-- Shape of a wire event: operation kind and datatype. -/
def Evt.shape : Evt → OpKind × Dty
  | .bcastIn d _ => (.bcast, d)
  | .scatterIn d _ => (.scatter, d)
  | .scattervIn d _ => (.scatterv, d)
  | .recvIn d _ => (.recv, d)
  | .gatherOut d _ => (.gather, d)
  | .gathervOut d _ => (.gatherv, d)
  | .disconnect => (.disc, .char)

/-- Modelled from the spec: the argument-exchange column of the command
table of §4.3, as a sequence of (operation, datatype) shapes per wire code.
The `Bool` flag is only read for code 2 (`AccumulateVector`) and tells
whether this worker is the broadcast target. -/
def specExchange : Nat → Bool → List (OpKind × Dty)
  | 0, _ => [(.bcast, .handle), (.gather, .handle)]
  | 1, _ => [(.bcast, .handle), (.gather, .handle)]
  | 2, true => [(.bcast, .size), (.recv, .handle), (.recv, .size),
                (.recv, .globalIdx), (.recv, .scalar)]
  | 2, false => [(.bcast, .size)]
  | 3, _ => [(.bcast, .handle), (.gatherv, .scalar)]
  | 4, _ => [(.bcast, .size), (.scatter, .size), (.scatterv, .globalIdx),
             (.gather, .handle)]
  | 5, _ => [(.bcast, .handle), (.scatterv, .size), (.scatterv, .globalIdx),
             (.gather, .handle)]
  | _, _ => []

/-- The four registry tables. -/
inductive TableKind where
  | maps
  | vectors
  | graphs
  | matrices
deriving DecidableEq

/-- The wire code of the creation command for each table. -/
def tableCode : TableKind → Nat
  | .matrices => 0
  | .vectors => 1
  | .maps => 4
  | .graphs => 5

/-- Length of one registry table. -/
def tblLen : TableKind → St → Nat
  | .maps, st => st.maps.length
  | .vectors, st => st.vectors.length
  | .graphs, st => st.graphs.length
  | .matrices, st => st.matrices.length

/-- The handle values contributed to fixed-size gathers in a trace. -/
def gatheredOf (tr : List Evt) : List Int :=
  (tr.filterMap fun e => match e with
    | .gatherOut _ vs => some vs
    | _ => none).flatten

/-- The handles gathered back by the successful creation rounds for table
`tk` along a script, in round order (the script is followed exactly as the
event loop executes it: it stops at termination or at a fatal error). -/
def createdHandles (tk : TableKind) : List Round → St → List Int
  | [], _ => []
  | r :: rest, st =>
    match FTABLE[r.code]? with
    | none => []
    | some f =>
      match f r.input st with
      | .error _ => []
      | .ok (st2, tr) =>
        (if r.code = tableCode tk then gatheredOf tr else []) ++
          createdHandles tk rest st2

/-! ## Basic facts about registry lookup -/

theorem resolve_ok_of {α : Type} (t : List α) (h : Int) (h0 : 0 ≤ h)
    (h1 : h.toNat < t.length) : resolve t h = .ok (t.get ⟨h.toNat, h1⟩) := by
  simp [resolve, h0, h1]

theorem resolve_error_of {α : Type} (t : List α) (h : Int)
    (hh : ¬(0 ≤ h ∧ h.toNat < t.length)) : resolve t h = .error .invalidHandle := by
  simp only [resolve]
  rw [dif_neg hh]

theorem resolve_append_length {α : Type} (xs : List α) (a : α) :
    resolve (xs ++ [a]) (Int.ofNat xs.length) = .ok a := by
  have h1 : (Int.ofNat xs.length).toNat < (xs ++ [a]).length := by simp
  rw [resolve_ok_of (xs ++ [a]) (Int.ofNat xs.length) (by exact Int.ofNat_nonneg _) h1]
  simp

theorem resolve_ok_inv {α : Type} {t : List α} {h : Int} {a : α}
    (hr : resolve t h = .ok a) :
    0 ≤ h ∧ ∃ hlt : h.toNat < t.length, t.get ⟨h.toNat, hlt⟩ = a := by
  by_cases hh : 0 ≤ h ∧ h.toNat < t.length
  · refine ⟨hh.1, hh.2, ?_⟩
    rw [resolve_ok_of t h hh.1 hh.2] at hr
    exact (Except.ok.injEq _ _).mp hr
  · rw [resolve_error_of t h hh] at hr
    cases hr

/-! ## Success characterizations of the handlers -/

theorem new_map_eq (size ndofs : Nat) (elems : List Int) (st : St) :
    new_map size ndofs elems st = .ok
      ({ st with maps := st.maps ++ [⟨size, elems.take ndofs⟩] },
       [.bcastIn .size 1, .scatterIn .size 1, .scattervIn .globalIdx ndofs,
        .gatherOut .handle [Int.ofNat st.maps.length]]) := rfl

theorem new_vector_eq_ok {imap : Int} {st : St} {m : MapObj}
    (hm : resolve st.maps imap = .ok m) :
    new_vector imap st = .ok
      ({ st with
           vectors := st.vectors ++ [st.vecStore.length]
           vecStore := st.vecStore ++ [⟨m.elems, List.replicate m.elems.length 0⟩] },
       [.bcastIn .handle 1, .gatherOut .handle [Int.ofNat st.vectors.length]]) := by
  simp [new_vector, hm]

theorem new_vector_eq_error {imap : Int} {st : St} {e : Err}
    (hm : resolve st.maps imap = .error e) : new_vector imap st = .error e := by
  simp [new_vector, hm]

theorem new_graph_eq_ok {imap : Int} {st : St} {m : MapObj}
    (numcolsIn : List Nat) (itemsIn : List Int)
    (hm : resolve st.maps imap = .ok m) :
    new_graph imap numcolsIn itemsIn st = .ok
      ({ st with graphs := st.graphs ++ [fillComplete (insertRows (graphNew m.elems (numcolsIn.take m.elems.length)) 0 (itemsIn.take (numcolsIn.take m.elems.length).sum) (numcolsIn.take m.elems.length))] },
       [.bcastIn .handle 1, .scattervIn .size m.elems.length,
        .scattervIn .globalIdx (numcolsIn.take m.elems.length).sum,
        .gatherOut .handle [Int.ofNat st.graphs.length]]) := by
  simp [new_graph, hm]

theorem new_graph_eq_error {imap : Int} {st : St} {e : Err}
    (numcolsIn : List Nat) (itemsIn : List Int)
    (hm : resolve st.maps imap = .error e) :
    new_graph imap numcolsIn itemsIn st = .error e := by
  simp [new_graph, hm]

theorem new_matrix_eq_ok {igraph : Int} {st : St} {g : GraphObj}
    (hg : resolve st.graphs igraph = .ok g) :
    new_matrix igraph st = .ok
      ({ st with matrices := st.matrices ++ [⟨g⟩] },
       [.bcastIn .handle 1, .gatherOut .handle [Int.ofNat st.matrices.length]]) := by
  simp [new_matrix, hg]

theorem new_matrix_eq_error {igraph : Int} {st : St} {e : Err}
    (hg : resolve st.graphs igraph = .error e) : new_matrix igraph st = .error e := by
  simp [new_matrix, hg]

theorem get_vector_eq_ok {ivec : Int} {st : St} {r : Nat}
    (hr : resolve st.vectors ivec = .ok r) :
    get_vector ivec st = .ok
      (st, [.bcastIn .handle 1,
            .gathervOut .scalar (st.vecStore.getD r ⟨[], []⟩).data]) := by
  simp [get_vector, hr]

theorem get_vector_eq_error {ivec : Int} {st : St} {e : Err}
    (hr : resolve st.vectors ivec = .error e) : get_vector ivec st = .error e := by
  simp [get_vector, hr]

theorem add_evec_eq_other {rank : Nat} {ivec : Int} {nitems : Nat}
    {idx : List Int} {vals : List ℚ} {st : St} (hne : rank ≠ st.myrank) :
    add_evec rank ivec nitems idx vals st = .ok (st, [.bcastIn .size 1]) := by
  simp [add_evec, hne]

theorem add_evec_eq_target_ok {rank : Nat} {ivec : Int} {nitems : Nat}
    {idx : List Int} {vals : List ℚ} {st : St} {r : Nat}
    (heq : rank = st.myrank) (hr : resolve st.vectors ivec = .ok r) :
    add_evec rank ivec nitems idx vals st = .ok
      ({ st with vecStore := st.vecStore.set r ((List.zip (idx.take nitems) (vals.take nitems)).foldl (fun w q => sumIntoGlobalValue w q.1 q.2) (st.vecStore.getD r ⟨[], []⟩)) },
       [.bcastIn .size 1, .recvIn .handle 1, .recvIn .size 1,
        .recvIn .globalIdx nitems, .recvIn .scalar nitems]) := by
  simp [add_evec, heq, hr]

theorem add_evec_eq_target_error {rank : Nat} {ivec : Int} {nitems : Nat}
    {idx : List Int} {vals : List ℚ} {st : St} {e : Err}
    (heq : rank = st.myrank) (hr : resolve st.vectors ivec = .error e) :
    add_evec rank ivec nitems idx vals st = .error e := by
  simp [add_evec, heq, hr]

/-! ## Effect of each dispatch-table entry on the registry tables -/

theorem run_new_matrix_tables {inp : CmdInput} {st st2 : St} {tr : List Evt}
    (h : run_new_matrix inp st = .ok (st2, tr)) :
    st2.maps = st.maps ∧ st2.vectors = st.vectors ∧ st2.graphs = st.graphs ∧
    (∃ x, st2.matrices = st.matrices ++ [x]) ∧
    gatheredOf tr = [Int.ofNat st.matrices.length] := by
  cases inp <;> simp [run_new_matrix] at h
  case newMatrix ig =>
    cases hg : resolve st.graphs ig with
    | error e => rw [new_matrix_eq_error hg] at h; cases h
    | ok g =>
      rw [new_matrix_eq_ok hg] at h
      obtain ⟨h1, h2⟩ := Prod.mk.injEq .. ▸ (Except.ok.injEq _ _).mp h
      subst h1; subst h2
      exact ⟨rfl, rfl, rfl, ⟨⟨g⟩, rfl⟩, rfl⟩

theorem run_new_vector_tables {inp : CmdInput} {st st2 : St} {tr : List Evt}
    (h : run_new_vector inp st = .ok (st2, tr)) :
    st2.maps = st.maps ∧ (∃ x, st2.vectors = st.vectors ++ [x]) ∧
    st2.graphs = st.graphs ∧ st2.matrices = st.matrices ∧
    gatheredOf tr = [Int.ofNat st.vectors.length] := by
  cases inp <;> simp [run_new_vector] at h
  case newVector im =>
    cases hm : resolve st.maps im with
    | error e => rw [new_vector_eq_error hm] at h; cases h
    | ok m =>
      rw [new_vector_eq_ok hm] at h
      obtain ⟨h1, h2⟩ := Prod.mk.injEq .. ▸ (Except.ok.injEq _ _).mp h
      subst h1; subst h2
      exact ⟨rfl, ⟨st.vecStore.length, rfl⟩, rfl, rfl, rfl⟩

theorem run_new_map_tables {inp : CmdInput} {st st2 : St} {tr : List Evt}
    (h : run_new_map inp st = .ok (st2, tr)) :
    (∃ x, st2.maps = st.maps ++ [x]) ∧ st2.vectors = st.vectors ∧
    st2.graphs = st.graphs ∧ st2.matrices = st.matrices ∧
    gatheredOf tr = [Int.ofNat st.maps.length] := by
  cases inp <;> simp [run_new_map] at h
  case newMap size ndofs elems =>
    rw [new_map_eq] at h
    obtain ⟨h1, h2⟩ := Prod.mk.injEq .. ▸ (Except.ok.injEq _ _).mp h
    subst h1; subst h2
    exact ⟨⟨_, rfl⟩, rfl, rfl, rfl, rfl⟩

theorem run_new_graph_tables {inp : CmdInput} {st st2 : St} {tr : List Evt}
    (h : run_new_graph inp st = .ok (st2, tr)) :
    st2.maps = st.maps ∧ st2.vectors = st.vectors ∧
    (∃ x, st2.graphs = st.graphs ++ [x]) ∧ st2.matrices = st.matrices ∧
    gatheredOf tr = [Int.ofNat st.graphs.length] := by
  cases inp <;> simp [run_new_graph] at h
  case newGraph im ncs its =>
    cases hm : resolve st.maps im with
    | error e => rw [new_graph_eq_error ncs its hm] at h; cases h
    | ok m =>
      rw [new_graph_eq_ok ncs its hm] at h
      obtain ⟨h1, h2⟩ := Prod.mk.injEq .. ▸ (Except.ok.injEq _ _).mp h
      subst h1; subst h2
      exact ⟨rfl, rfl, ⟨_, rfl⟩, rfl, rfl⟩

theorem run_add_evec_tables {inp : CmdInput} {st st2 : St} {tr : List Evt}
    (h : run_add_evec inp st = .ok (st2, tr)) :
    st2.maps = st.maps ∧ st2.vectors = st.vectors ∧
    st2.graphs = st.graphs ∧ st2.matrices = st.matrices ∧
    gatheredOf tr = [] := by
  cases inp <;> simp [run_add_evec] at h
  case addEvec rank ivec nitems idx vals =>
    by_cases hrk : rank = st.myrank
    · cases hr : resolve st.vectors ivec with
      | error e => rw [add_evec_eq_target_error hrk hr] at h; cases h
      | ok r =>
        rw [add_evec_eq_target_ok hrk hr] at h
        obtain ⟨h1, h2⟩ := Prod.mk.injEq .. ▸ (Except.ok.injEq _ _).mp h
        subst h1; subst h2
        exact ⟨rfl, rfl, rfl, rfl, rfl⟩
    · rw [add_evec_eq_other hrk] at h
      obtain ⟨h1, h2⟩ := Prod.mk.injEq .. ▸ (Except.ok.injEq _ _).mp h
      subst h1; subst h2
      exact ⟨rfl, rfl, rfl, rfl, rfl⟩

theorem run_get_vector_tables {inp : CmdInput} {st st2 : St} {tr : List Evt}
    (h : run_get_vector inp st = .ok (st2, tr)) :
    st2 = st ∧ gatheredOf tr = [] := by
  cases inp <;> simp [run_get_vector] at h
  case getVector ivec =>
    cases hr : resolve st.vectors ivec with
    | error e => rw [get_vector_eq_error hr] at h; cases h
    | ok r =>
      rw [get_vector_eq_ok hr] at h
      obtain ⟨h1, h2⟩ := Prod.mk.injEq .. ▸ (Except.ok.injEq _ _).mp h
      subst h1; subst h2
      exact ⟨rfl, rfl⟩

/-- Effect of one successfully dispatched round on one registry table: the
creation command of table `tk` gathers exactly the current table length and
grows the table by one; every other command leaves the table length
unchanged. -/
theorem step_tables {c : Nat} {f : CmdInput → St → Except Err (St × List Evt)}
    {inp : CmdInput} {st st2 : St} {tr : List Evt}
    (hf : FTABLE[c]? = some f) (hok : f inp st = .ok (st2, tr)) (tk : TableKind) :
    (c = tableCode tk →
       gatheredOf tr = [Int.ofNat (tblLen tk st)] ∧
       tblLen tk st2 = tblLen tk st + 1) ∧
    (c ≠ tableCode tk → tblLen tk st2 = tblLen tk st) := by
  have hc : c < FTABLE.length := by
    by_contra hge
    rw [List.getElem?_eq_none (by omega)] at hf
    cases hf
  have hc6 : c < 6 := by simpa [FTABLE] using hc
  have hcases : c = 0 ∨ c = 1 ∨ c = 2 ∨ c = 3 ∨ c = 4 ∨ c = 5 := by omega
  rcases hcases with rfl | rfl | rfl | rfl | rfl | rfl
  · have hfe : f = run_new_matrix := by
      have h0 : FTABLE[0]? = some run_new_matrix := rfl
      rw [h0] at hf; exact (Option.some.injEq _ _).mp hf.symm
    subst hfe
    obtain ⟨hm, hv, hg, ⟨x, hx⟩, hgath⟩ := run_new_matrix_tables hok
    cases tk <;> refine ⟨fun hcc => ?_, fun hcc => ?_⟩ <;>
      first
      | exact absurd hcc (by decide)
      | exact absurd rfl hcc
      | simp [tblLen, hm, hv, hg, hx, hgath]
  · have hfe : f = run_new_vector := by
      have h0 : FTABLE[1]? = some run_new_vector := rfl
      rw [h0] at hf; exact (Option.some.injEq _ _).mp hf.symm
    subst hfe
    obtain ⟨hm, ⟨x, hx⟩, hg, hmat, hgath⟩ := run_new_vector_tables hok
    cases tk <;> refine ⟨fun hcc => ?_, fun hcc => ?_⟩ <;>
      first
      | exact absurd hcc (by decide)
      | exact absurd rfl hcc
      | simp [tblLen, hm, hx, hg, hmat, hgath]
  · have hfe : f = run_add_evec := by
      have h0 : FTABLE[2]? = some run_add_evec := rfl
      rw [h0] at hf; exact (Option.some.injEq _ _).mp hf.symm
    subst hfe
    obtain ⟨hm, hv, hg, hmat, hgath⟩ := run_add_evec_tables hok
    cases tk <;> refine ⟨fun hcc => ?_, fun hcc => ?_⟩ <;>
      first
      | exact absurd hcc (by decide)
      | simp [tblLen, hm, hv, hg, hmat]
  · have hfe : f = run_get_vector := by
      have h0 : FTABLE[3]? = some run_get_vector := rfl
      rw [h0] at hf; exact (Option.some.injEq _ _).mp hf.symm
    subst hfe
    obtain ⟨hst, hgath⟩ := run_get_vector_tables hok
    subst hst
    cases tk <;> refine ⟨fun hcc => ?_, fun hcc => ?_⟩ <;>
      first
      | exact absurd hcc (by decide)
      | rfl
  · have hfe : f = run_new_map := by
      have h0 : FTABLE[4]? = some run_new_map := rfl
      rw [h0] at hf; exact (Option.some.injEq _ _).mp hf.symm
    subst hfe
    obtain ⟨⟨x, hx⟩, hv, hg, hmat, hgath⟩ := run_new_map_tables hok
    cases tk <;> refine ⟨fun hcc => ?_, fun hcc => ?_⟩ <;>
      first
      | exact absurd hcc (by decide)
      | exact absurd rfl hcc
      | simp [tblLen, hx, hv, hg, hmat, hgath]
  · have hfe : f = run_new_graph := by
      have h0 : FTABLE[5]? = some run_new_graph := rfl
      rw [h0] at hf; exact (Option.some.injEq _ _).mp hf.symm
    subst hfe
    obtain ⟨hm, hv, ⟨x, hx⟩, hmat, hgath⟩ := run_new_graph_tables hok
    cases tk <;> refine ⟨fun hcc => ?_, fun hcc => ?_⟩ <;>
      first
      | exact absurd hcc (by decide)
      | exact absurd rfl hcc
      | simp [tblLen, hm, hv, hx, hmat, hgath]

/-- Along any script, the handles gathered by the successful creations for
one table form the contiguous range starting at the table's current
length. -/
theorem createdHandles_eq_range' (tk : TableKind) (rounds : List Round) :
    ∀ st : St, createdHandles tk rounds st =
      (List.range' (tblLen tk st)
        (createdHandles tk rounds st).length).map Int.ofNat := by
  induction rounds with
  | nil => intro st; simp [createdHandles]
  | cons r rest ih =>
    intro st
    cases hf : FTABLE[r.code]? with
    | none => simp [createdHandles, hf]
    | some f =>
      cases hr : f r.input st with
      | error e => simp [createdHandles, hf, hr]
      | ok p =>
        obtain ⟨st2, tr⟩ := p
        have hstep := step_tables hf hr tk
        by_cases hc : r.code = tableCode tk
        · obtain ⟨hgath, hlen⟩ := hstep.1 hc
          have ihs := ih st2
          rw [hlen] at ihs
          simp only [createdHandles, hf, hr, if_pos hc, hgath]
          simp only [List.singleton_append, List.length_cons]
          rw [List.range'_succ, List.map_cons, ← ihs]
        · have hlen := hstep.2 hc
          have ihs := ih st2
          rw [hlen] at ihs
          simp only [createdHandles, hf, hr, if_neg hc, List.nil_append]
          exact ihs

/-! ## Concrete fixtures (worker 0's view of the spec's end-to-end scenario) -/

/-- Map of size 4; worker 0 owns global ids 0 and 1. -/
def exMap : MapObj := ⟨4, [0, 1]⟩

/-- Worker-0 state holding just that map. -/
def exStM : St := { initState 0 with maps := [exMap] }

/-- State after `new_vector 0` on `exStM`. -/
def exStV : St :=
  { exStM with vectors := [0], vecStore := [⟨[0, 1], [0, 0]⟩] }

/-- The graph built by `new_graph 0 [1,1] [2,3]` on `exStM`. -/
def exGraph : GraphObj := ⟨[0, 1], [1, 1], [(0, [2]), (1, [3])], true⟩

/-- State after `new_graph 0 [1,1] [2,3]` on `exStM`. -/
def exStG : St := { exStM with graphs := [exGraph] }

/-- State after `new_matrix 0` on `exStG`. -/
def exStX : St := { exStG with matrices := [⟨exGraph⟩] }

/-- C2: for each of the four registry tables (maps, vectors, graphs,
matrices), along any command script run from the initial empty-registry
state, the handles gathered back by that table's successful creation
commands are exactly `0, 1, ..., N-1` in creation order; moreover every
single creation gathers back the table length at creation time and grows its
table by exactly one, so handles are strictly increasing and never reused or
reclaimed. -/
theorem C2_handle_allocation :
    (∀ (tk : TableKind) (myrank : Nat) (rounds : List Round),
       createdHandles tk rounds (initState myrank) =
         (List.range (createdHandles tk rounds (initState myrank)).length).map
           Int.ofNat) ∧
    (∀ (size ndofs : Nat) (elems : List Int) (st st2 : St) (tr : List Evt),
       new_map size ndofs elems st = .ok (st2, tr) →
       gatheredOf tr = [Int.ofNat st.maps.length] ∧
       st2.maps.length = st.maps.length + 1) ∧
    (∀ (imap : Int) (st st2 : St) (tr : List Evt),
       new_vector imap st = .ok (st2, tr) →
       gatheredOf tr = [Int.ofNat st.vectors.length] ∧
       st2.vectors.length = st.vectors.length + 1) ∧
    (∀ (imap : Int) (ncs : List Nat) (its : List Int) (st st2 : St) (tr : List Evt),
       new_graph imap ncs its st = .ok (st2, tr) →
       gatheredOf tr = [Int.ofNat st.graphs.length] ∧
       st2.graphs.length = st.graphs.length + 1) ∧
    (∀ (igraph : Int) (st st2 : St) (tr : List Evt),
       new_matrix igraph st = .ok (st2, tr) →
       gatheredOf tr = [Int.ofNat st.matrices.length] ∧
       st2.matrices.length = st.matrices.length + 1) := by
  refine ⟨?_, ?_, ?_, ?_, ?_⟩
  · intro tk myrank rounds
    have h := createdHandles_eq_range' tk rounds (initState myrank)
    have h0 : tblLen tk (initState myrank) = 0 := by cases tk <;> rfl
    rw [h0] at h
    rw [List.range_eq_range']
    exact h
  · intro size ndofs elems st st2 tr h
    obtain ⟨⟨x, hx⟩, _, _, _, hg⟩ :=
      @run_new_map_tables (.newMap size ndofs elems) st st2 tr h
    exact ⟨hg, by simp [hx]⟩
  · intro imap st st2 tr h
    obtain ⟨_, ⟨x, hx⟩, _, _, hg⟩ :=
      @run_new_vector_tables (.newVector imap) st st2 tr h
    exact ⟨hg, by simp [hx]⟩
  · intro imap ncs its st st2 tr h
    obtain ⟨_, _, ⟨x, hx⟩, _, hg⟩ :=
      @run_new_graph_tables (.newGraph imap ncs its) st st2 tr h
    exact ⟨hg, by simp [hx]⟩
  · intro igraph st st2 tr h
    obtain ⟨_, _, _, ⟨x, hx⟩, hg⟩ :=
      @run_new_matrix_tables (.newMatrix igraph) st st2 tr h
    exact ⟨hg, by simp [hx]⟩

/-- Witness for C2: each creation handler, run on a concrete state, gathers
the current table length and grows its table by one. -/
theorem C2_handle_allocation_witness :
    (gatheredOf [.bcastIn .size 1, .scatterIn .size 1, .scattervIn .globalIdx 2,
        .gatherOut .handle [Int.ofNat 0]] = [Int.ofNat (initState 0).maps.length] ∧
      exStM.maps.length = (initState 0).maps.length + 1) ∧
    (gatheredOf [.bcastIn .handle 1, .gatherOut .handle [Int.ofNat 0]] =
        [Int.ofNat exStM.vectors.length] ∧
      exStV.vectors.length = exStM.vectors.length + 1) ∧
    (gatheredOf [.bcastIn .handle 1, .scattervIn .size 2, .scattervIn .globalIdx 2,
        .gatherOut .handle [Int.ofNat 0]] = [Int.ofNat exStM.graphs.length] ∧
      exStG.graphs.length = exStM.graphs.length + 1) ∧
    (gatheredOf [.bcastIn .handle 1, .gatherOut .handle [Int.ofNat 0]] =
        [Int.ofNat exStG.matrices.length] ∧
      exStX.matrices.length = exStG.matrices.length + 1) :=
  ⟨C2_handle_allocation.2.1 4 2 [0, 1] (initState 0) exStM _ rfl,
   C2_handle_allocation.2.2.1 0 exStM exStV _ rfl,
   C2_handle_allocation.2.2.2.1 0 [1, 1] [2, 3] exStM exStG _ rfl,
   C2_handle_allocation.2.2.2.2 0 exStG exStX _ rfl⟩

/-- C1: the dispatch table interprets the broadcast command code in the
fixed 0-based order CreateMatrix (`new_matrix`), CreateVector
(`new_vector`), AccumulateVector (`add_evec`), ReadVector (`get_vector`),
CreateMap (`new_map`), CreateGraph (`new_graph`); each handler performs
exactly the argument-exchange sequence of its row of the spec's command
table, in order (`specExchange`); and, as the claim's example, code 0
broadcasts a graph handle, allocates a matrix from the resolved graph, and
gathers the matrix handle. -/
theorem C1_dispatch_and_exchange :
    FTABLE = [run_new_matrix, run_new_vector, run_add_evec, run_get_vector,
              run_new_map, run_new_graph] ∧
    (∀ (igraph : Int) (st : St) (g : GraphObj),
       resolve st.graphs igraph = .ok g →
       new_matrix igraph st = .ok
         ({ st with matrices := st.matrices ++ [⟨g⟩] },
          [.bcastIn .handle 1, .gatherOut .handle [Int.ofNat st.matrices.length]])) ∧
    (∀ (igraph : Int) (st st2 : St) (tr : List Evt),
       new_matrix igraph st = .ok (st2, tr) →
       tr.map Evt.shape = specExchange 0 true) ∧
    (∀ (imap : Int) (st st2 : St) (tr : List Evt),
       new_vector imap st = .ok (st2, tr) →
       tr.map Evt.shape = specExchange 1 true) ∧
    (∀ (rank : Nat) (ivec : Int) (nitems : Nat) (idx : List Int) (vals : List ℚ)
       (st st2 : St) (tr : List Evt),
       add_evec rank ivec nitems idx vals st = .ok (st2, tr) →
       tr.map Evt.shape = specExchange 2 (decide (rank = st.myrank))) ∧
    (∀ (ivec : Int) (st st2 : St) (tr : List Evt),
       get_vector ivec st = .ok (st2, tr) →
       tr.map Evt.shape = specExchange 3 true) ∧
    (∀ (size ndofs : Nat) (elems : List Int) (st st2 : St) (tr : List Evt),
       new_map size ndofs elems st = .ok (st2, tr) →
       tr.map Evt.shape = specExchange 4 true) ∧
    (∀ (imap : Int) (ncs : List Nat) (its : List Int) (st st2 : St) (tr : List Evt),
       new_graph imap ncs its st = .ok (st2, tr) →
       tr.map Evt.shape = specExchange 5 true) := by
  refine ⟨rfl, ?_, ?_, ?_, ?_, ?_, ?_, ?_⟩
  · intro igraph st g hg
    exact new_matrix_eq_ok hg
  · intro igraph st st2 tr h
    cases hg : resolve st.graphs igraph with
    | error e => rw [new_matrix_eq_error hg] at h; cases h
    | ok g =>
      rw [new_matrix_eq_ok hg] at h
      obtain ⟨h1, h2⟩ := Prod.mk.injEq .. ▸ (Except.ok.injEq _ _).mp h
      subst h2; rfl
  · intro imap st st2 tr h
    cases hm : resolve st.maps imap with
    | error e => rw [new_vector_eq_error hm] at h; cases h
    | ok m =>
      rw [new_vector_eq_ok hm] at h
      obtain ⟨h1, h2⟩ := Prod.mk.injEq .. ▸ (Except.ok.injEq _ _).mp h
      subst h2; rfl
  · intro rank ivec nitems idx vals st st2 tr h
    by_cases hrk : rank = st.myrank
    · cases hr : resolve st.vectors ivec with
      | error e => rw [add_evec_eq_target_error hrk hr] at h; cases h
      | ok r =>
        rw [add_evec_eq_target_ok hrk hr] at h
        obtain ⟨h1, h2⟩ := Prod.mk.injEq .. ▸ (Except.ok.injEq _ _).mp h
        subst h2; simp [hrk, Evt.shape, specExchange]
    · rw [add_evec_eq_other hrk] at h
      obtain ⟨h1, h2⟩ := Prod.mk.injEq .. ▸ (Except.ok.injEq _ _).mp h
      subst h2; simp [hrk, Evt.shape, specExchange]
  · intro ivec st st2 tr h
    cases hr : resolve st.vectors ivec with
    | error e => rw [get_vector_eq_error hr] at h; cases h
    | ok r =>
      rw [get_vector_eq_ok hr] at h
      obtain ⟨h1, h2⟩ := Prod.mk.injEq .. ▸ (Except.ok.injEq _ _).mp h
      subst h2; rfl
  · intro size ndofs elems st st2 tr h
    rw [new_map_eq] at h
    obtain ⟨h1, h2⟩ := Prod.mk.injEq .. ▸ (Except.ok.injEq _ _).mp h
    subst h2; rfl
  · intro imap ncs its st st2 tr h
    cases hm : resolve st.maps imap with
    | error e => rw [new_graph_eq_error ncs its hm] at h; cases h
    | ok m =>
      rw [new_graph_eq_ok ncs its hm] at h
      obtain ⟨h1, h2⟩ := Prod.mk.injEq .. ▸ (Except.ok.injEq _ _).mp h
      subst h2; rfl

/-- State after `add_evec 0 0 1 [0] [5]` on `exStV` (worker 0 is the
target; value 5 accumulated into the zero entry at global index 0; the sum
is kept unevaluated so the definition is the literal handler output). -/
def exStA : St := { exStV with vecStore := [⟨[0, 1], [0 + 5, 0]⟩] }

/-- Witness for C1: the exchange-shape clauses evaluated on concrete
rounds. -/
theorem C1_dispatch_and_exchange_witness :
    (new_matrix 0 exStG = .ok
      ({ exStG with matrices := exStG.matrices ++ [⟨exGraph⟩] },
       [.bcastIn .handle 1, .gatherOut .handle [Int.ofNat exStG.matrices.length]])) ∧
    ([Evt.bcastIn .handle 1,
      Evt.gatherOut .handle [Int.ofNat 0]].map Evt.shape = specExchange 0 true) ∧
    ([Evt.bcastIn .handle 1,
      Evt.gatherOut .handle [Int.ofNat 0]].map Evt.shape = specExchange 1 true) ∧
    ([Evt.bcastIn .size 1, Evt.recvIn .handle 1, Evt.recvIn .size 1,
      Evt.recvIn .globalIdx 1, Evt.recvIn .scalar 1].map Evt.shape =
        specExchange 2 (decide (0 = exStV.myrank))) ∧
    ([Evt.bcastIn .handle 1,
      Evt.gathervOut .scalar [0 + 5, 0]].map Evt.shape = specExchange 3 true) ∧
    ([Evt.bcastIn .size 1, Evt.scatterIn .size 1, Evt.scattervIn .globalIdx 2,
      Evt.gatherOut .handle [Int.ofNat 0]].map Evt.shape = specExchange 4 true) ∧
    ([Evt.bcastIn .handle 1, Evt.scattervIn .size 2, Evt.scattervIn .globalIdx 2,
      Evt.gatherOut .handle [Int.ofNat 0]].map Evt.shape = specExchange 5 true) :=
  ⟨C1_dispatch_and_exchange.2.1 0 exStG exGraph rfl,
   C1_dispatch_and_exchange.2.2.1 0 exStG exStX _ rfl,
   C1_dispatch_and_exchange.2.2.2.1 0 exStM exStV _ rfl,
   C1_dispatch_and_exchange.2.2.2.2.1 0 0 1 [0] [5] exStV _ _ rfl,
   C1_dispatch_and_exchange.2.2.2.2.2.1 0 exStA exStA _ rfl,
   C1_dispatch_and_exchange.2.2.2.2.2.2.1 4 2 [0, 1] (initState 0) exStM _ rfl,
   C1_dispatch_and_exchange.2.2.2.2.2.2.2 0 [1, 1] [2, 3] exStM exStG _ rfl⟩

/-- C3: for every broadcast command code, if the code is at least the table
length (6) the worker leaves the dispatch loop in that round having invoked
no handler (the round's trace is just the command-byte broadcast), the
channel is disconnected, and the process exits with status 0, whatever the
registries hold; if the code is below 6 the corresponding table entry is
invoked and the loop continues with the next round. -/
theorem C3_termination :
    ∀ (st : St) (code : Nat) (inp : CmdInput) (rest : List Round),
      (NTOKENS ≤ code →
         eventloop (⟨code, inp⟩ :: rest) st =
           .terminated st [.bcastIn .char 1, .disconnect] ∧
         mainEntry .eventloop (⟨code, inp⟩ :: rest) st = some 0) ∧
      (code < NTOKENS →
         ∀ f, FTABLE[code]? = some f →
           (∀ e, f inp st = .error e →
              eventloop (⟨code, inp⟩ :: rest) st = .failed e [.bcastIn .char 1]) ∧
           (∀ st2 tr, f inp st = .ok (st2, tr) →
              eventloop (⟨code, inp⟩ :: rest) st =
                withTrace (.bcastIn .char 1 :: tr) (eventloop rest st2))) := by
  intro st code inp rest
  constructor
  · intro hge
    have hnone : FTABLE[code]? = none :=
      List.getElem?_eq_none (by simpa [NTOKENS] using hge)
    constructor
    · simp [eventloop, hnone]
    · simp [mainEntry, eventloop, hnone]
  · intro hlt f hf
    constructor
    · intro e he
      simp [eventloop, hf, he]
    · intro st2 tr hok
      simp [eventloop, hf, hok]

/-- Witness for C3: code 6 terminates the loop cleanly with exit status 0 on
a concrete state; code 1 dispatches `run_new_vector` and continues (or dies
on a bad handle). -/
theorem C3_termination_witness :
    (eventloop [⟨6, .getVector 0⟩] exStM =
       .terminated exStM [.bcastIn .char 1, .disconnect] ∧
     mainEntry .eventloop [⟨6, .getVector 0⟩] exStM = some 0) ∧
    (eventloop [⟨1, .newVector 0⟩] exStM =
       withTrace (.bcastIn .char 1 ::
         [.bcastIn .handle 1, .gatherOut .handle [Int.ofNat 0]])
         (eventloop [] exStV)) ∧
    (eventloop [⟨1, .newVector 5⟩] exStM =
       .failed .invalidHandle [.bcastIn .char 1]) :=
  ⟨(C3_termination exStM 6 (.getVector 0) []).1 (by decide),
   ((C3_termination exStM 1 (.newVector 0) []).2 (by decide)
      run_new_vector rfl).2 exStV _ rfl,
   ((C3_termination exStM 1 (.newVector 5) []).2 (by decide)
      run_new_vector rfl).1 .invalidHandle rfl⟩

/-- C5: in an AccumulateVector round with broadcast target `rank`, a worker
whose rank differs performs only the initial broadcast and returns with its
state (all registries and all vector contents) exactly unchanged; the worker
whose rank equals the target performs the four point-to-point receives and
applies the values to the resolved vector, leaving all four registry tables
untouched. -/
theorem C5_accumulate_asymmetry :
    ∀ (st : St) (rank : Nat) (ivec : Int) (nitems : Nat) (idx : List Int)
      (vals : List ℚ),
      (rank ≠ st.myrank →
         add_evec rank ivec nitems idx vals st = .ok (st, [.bcastIn .size 1])) ∧
      (rank = st.myrank →
         ∀ st2 tr, add_evec rank ivec nitems idx vals st = .ok (st2, tr) →
           tr = [.bcastIn .size 1, .recvIn .handle 1, .recvIn .size 1,
                 .recvIn .globalIdx nitems, .recvIn .scalar nitems] ∧
           st2.maps = st.maps ∧ st2.vectors = st.vectors ∧
           st2.graphs = st.graphs ∧ st2.matrices = st.matrices ∧
           ∃ r, resolve st.vectors ivec = .ok r ∧
             st2.vecStore = st.vecStore.set r
               ((List.zip (idx.take nitems) (vals.take nitems)).foldl
                 (fun w q => sumIntoGlobalValue w q.1 q.2)
                 (st.vecStore.getD r ⟨[], []⟩))) := by
  intro st rank ivec nitems idx vals
  constructor
  · intro hne
    exact add_evec_eq_other hne
  · intro heq st2 tr h
    cases hr : resolve st.vectors ivec with
    | error e => rw [add_evec_eq_target_error heq hr] at h; cases h
    | ok r =>
      rw [add_evec_eq_target_ok heq hr] at h
      obtain ⟨h1, h2⟩ := Prod.mk.injEq .. ▸ (Except.ok.injEq _ _).mp h
      subst h1; subst h2
      exact ⟨rfl, rfl, rfl, rfl, rfl, r, rfl, rfl⟩

/-- Witness for C5: on the concrete one-vector state, a rank-1 worker is a
no-op for a target-0 round, and the rank-0 worker receives and applies the
payload. -/
theorem C5_accumulate_asymmetry_witness :
    (add_evec 0 0 1 [0] [5] { exStV with myrank := 1 } =
       .ok ({ exStV with myrank := 1 }, [.bcastIn .size 1])) ∧
    ([Evt.bcastIn .size 1, Evt.recvIn .handle 1, Evt.recvIn .size 1,
      Evt.recvIn .globalIdx 1, Evt.recvIn .scalar 1] =
        ([.bcastIn .size 1, .recvIn .handle 1, .recvIn .size 1,
          .recvIn .globalIdx 1, .recvIn .scalar 1] : List Evt) ∧
     exStA.maps = exStV.maps ∧ exStA.vectors = exStV.vectors ∧
     exStA.graphs = exStV.graphs ∧ exStA.matrices = exStV.matrices ∧
     ∃ r, resolve exStV.vectors 0 = .ok r ∧
       exStA.vecStore = exStV.vecStore.set r
         ((List.zip (([0] : List Int).take 1) (([5] : List ℚ).take 1)).foldl
           (fun w q => sumIntoGlobalValue w q.1 q.2)
           (exStV.vecStore.getD r ⟨[], []⟩))) :=
  ⟨(C5_accumulate_asymmetry { exStV with myrank := 1 } 0 0 1 [0] [5]).1
     (by decide),
   (C5_accumulate_asymmetry exStV 0 0 1 [0] [5]).2 rfl exStA _ rfl⟩

/-! ## List helpers for vector contents -/

theorem getD_set_self {α : Type} (l : List α) (p : Nat) (x d : α)
    (h : p < l.length) : (l.set p x).getD p d = x := by
  rw [List.getD_eq_getElem?_getD]
  simp [List.getElem?_set_self, h]

theorem getD_set_ne {α : Type} (l : List α) (p q : Nat) (x d : α)
    (hne : q ≠ p) : (l.set p x).getD q d = l.getD q d := by
  rw [List.getD_eq_getElem?_getD, List.getElem?_set_ne (Ne.symm hne),
    ← List.getD_eq_getElem?_getD]

theorem getD_replicate {α : Type} (n q : Nat) (x d : α) (hq : q < n) :
    (List.replicate n x).getD q d = x := by
  rw [List.getD_eq_getElem?_getD]
  simp [List.getElem?_replicate, hq]

theorem set_append_length {α : Type} (xs : List α) (a b : α) :
    (xs ++ [a]).set xs.length b = xs ++ [b] := by
  simp [List.set_append]

theorem getD_append_length {α : Type} (xs : List α) (a d : α) :
    (xs ++ [a]).getD xs.length d = a := by
  simp [List.getD]

/-- C7: a command round that references a handle outside the bounds of its
registry table fails with InvalidHandle, and that failure is fatal to the
worker (the event loop dies in that round); resolving an in-bounds handle
returns the stored object. -/
theorem C7_invalid_handle :
    (∀ (α : Type) (t : List α) (h : Int),
       (¬(0 ≤ h ∧ h.toNat < t.length) → resolve t h = .error .invalidHandle) ∧
       (∀ (h0 : 0 ≤ h) (h1 : h.toNat < t.length),
          resolve t h = .ok (t.get ⟨h.toNat, h1⟩))) ∧
    (∀ (imap : Int) (st : St), ¬(0 ≤ imap ∧ imap.toNat < st.maps.length) →
       new_vector imap st = .error .invalidHandle) ∧
    (∀ (imap : Int) (ncs : List Nat) (its : List Int) (st : St),
       ¬(0 ≤ imap ∧ imap.toNat < st.maps.length) →
       new_graph imap ncs its st = .error .invalidHandle) ∧
    (∀ (ivec : Int) (st : St), ¬(0 ≤ ivec ∧ ivec.toNat < st.vectors.length) →
       get_vector ivec st = .error .invalidHandle) ∧
    (∀ (rank : Nat) (ivec : Int) (nitems : Nat) (idx : List Int)
       (vals : List ℚ) (st : St), rank = st.myrank →
       ¬(0 ≤ ivec ∧ ivec.toNat < st.vectors.length) →
       add_evec rank ivec nitems idx vals st = .error .invalidHandle) ∧
    (∀ (igraph : Int) (st : St), ¬(0 ≤ igraph ∧ igraph.toNat < st.graphs.length) →
       new_matrix igraph st = .error .invalidHandle) ∧
    (∀ (code : Nat) (inp : CmdInput) (rest : List Round) (st : St)
       (f : CmdInput → St → Except Err (St × List Evt)),
       FTABLE[code]? = some f → f inp st = .error .invalidHandle →
       eventloop (⟨code, inp⟩ :: rest) st =
         .failed .invalidHandle [.bcastIn .char 1]) := by
  refine ⟨?_, ?_, ?_, ?_, ?_, ?_, ?_⟩
  · intro α t h
    exact ⟨resolve_error_of t h, fun h0 h1 => resolve_ok_of t h h0 h1⟩
  · intro imap st hh
    exact new_vector_eq_error (resolve_error_of _ _ hh)
  · intro imap ncs its st hh
    exact new_graph_eq_error ncs its (resolve_error_of _ _ hh)
  · intro ivec st hh
    exact get_vector_eq_error (resolve_error_of _ _ hh)
  · intro rank ivec nitems idx vals st heq hh
    exact add_evec_eq_target_error heq (resolve_error_of _ _ hh)
  · intro igraph st hh
    exact new_matrix_eq_error (resolve_error_of _ _ hh)
  · intro code inp rest st f hf he
    simp [eventloop, hf, he]

/-- Witness for C7: out-of-range handles fail each handler on concrete
states, an in-bounds handle resolves, and the failure kills the event
loop. -/
theorem C7_invalid_handle_witness :
    (resolve exStM.maps 5 = .error .invalidHandle) ∧
    (resolve exStM.maps 0 = .ok (exStM.maps.get ⟨(0 : Int).toNat, by decide⟩)) ∧
    (new_vector 5 exStM = .error .invalidHandle) ∧
    (new_graph 5 [1] [2] exStM = .error .invalidHandle) ∧
    (get_vector 3 exStV = .error .invalidHandle) ∧
    (add_evec 0 3 0 [] [] exStV = .error .invalidHandle) ∧
    (new_matrix 2 exStG = .error .invalidHandle) ∧
    (eventloop [⟨0, .newMatrix 2⟩] exStG =
       .failed .invalidHandle [.bcastIn .char 1]) :=
  ⟨(C7_invalid_handle.1 MapObj exStM.maps 5).1 (by decide),
   (C7_invalid_handle.1 MapObj exStM.maps 0).2 (by decide) (by decide),
   C7_invalid_handle.2.1 5 exStM (by decide),
   C7_invalid_handle.2.2.1 5 [1] [2] exStM (by decide),
   C7_invalid_handle.2.2.2.1 3 exStV (by decide),
   C7_invalid_handle.2.2.2.2.1 0 3 0 [] [] exStV rfl (by decide),
   C7_invalid_handle.2.2.2.2.2.1 2 exStG (by decide),
   C7_invalid_handle.2.2.2.2.2.2 0 (.newMatrix 2) [] exStG run_new_matrix
     rfl rfl⟩

/-- C8: every handler either leaves all four registry tables unchanged
(AccumulateVector, ReadVector — the `RCP`-array of vector references is
unchanged even when a pointed-to vector's values change) or appends exactly
one entry to exactly one table, leaving the other three tables and all
previously stored entries untouched; no handler removes, replaces or
reorders a registry entry. -/
theorem C8_frame :
    (∀ (size ndofs : Nat) (elems : List Int) (st st2 : St) (tr : List Evt),
       new_map size ndofs elems st = .ok (st2, tr) →
       (∃ x, st2.maps = st.maps ++ [x]) ∧ st2.vectors = st.vectors ∧
       st2.graphs = st.graphs ∧ st2.matrices = st.matrices) ∧
    (∀ (imap : Int) (st st2 : St) (tr : List Evt),
       new_vector imap st = .ok (st2, tr) →
       st2.maps = st.maps ∧ (∃ x, st2.vectors = st.vectors ++ [x]) ∧
       st2.graphs = st.graphs ∧ st2.matrices = st.matrices) ∧
    (∀ (imap : Int) (ncs : List Nat) (its : List Int) (st st2 : St)
       (tr : List Evt),
       new_graph imap ncs its st = .ok (st2, tr) →
       st2.maps = st.maps ∧ st2.vectors = st.vectors ∧
       (∃ x, st2.graphs = st.graphs ++ [x]) ∧ st2.matrices = st.matrices) ∧
    (∀ (igraph : Int) (st st2 : St) (tr : List Evt),
       new_matrix igraph st = .ok (st2, tr) →
       st2.maps = st.maps ∧ st2.vectors = st.vectors ∧
       st2.graphs = st.graphs ∧ (∃ x, st2.matrices = st.matrices ++ [x])) ∧
    (∀ (rank : Nat) (ivec : Int) (nitems : Nat) (idx : List Int)
       (vals : List ℚ) (st st2 : St) (tr : List Evt),
       add_evec rank ivec nitems idx vals st = .ok (st2, tr) →
       st2.maps = st.maps ∧ st2.vectors = st.vectors ∧
       st2.graphs = st.graphs ∧ st2.matrices = st.matrices) ∧
    (∀ (ivec : Int) (st st2 : St) (tr : List Evt),
       get_vector ivec st = .ok (st2, tr) → st2 = st) := by
  refine ⟨?_, ?_, ?_, ?_, ?_, ?_⟩
  · intro size ndofs elems st st2 tr h
    obtain ⟨hx, hv, hg, hmat, _⟩ :=
      @run_new_map_tables (.newMap size ndofs elems) st st2 tr h
    exact ⟨hx, hv, hg, hmat⟩
  · intro imap st st2 tr h
    obtain ⟨hm, hx, hg, hmat, _⟩ :=
      @run_new_vector_tables (.newVector imap) st st2 tr h
    exact ⟨hm, hx, hg, hmat⟩
  · intro imap ncs its st st2 tr h
    obtain ⟨hm, hv, hx, hmat, _⟩ :=
      @run_new_graph_tables (.newGraph imap ncs its) st st2 tr h
    exact ⟨hm, hv, hx, hmat⟩
  · intro igraph st st2 tr h
    obtain ⟨hm, hv, hg, hx, _⟩ :=
      @run_new_matrix_tables (.newMatrix igraph) st st2 tr h
    exact ⟨hm, hv, hg, hx⟩
  · intro rank ivec nitems idx vals st st2 tr h
    obtain ⟨hm, hv, hg, hmat, _⟩ :=
      @run_add_evec_tables (.addEvec rank ivec nitems idx vals) st st2 tr h
    exact ⟨hm, hv, hg, hmat⟩
  · intro ivec st st2 tr h
    exact (@run_get_vector_tables (.getVector ivec) st st2 tr h).1

/-- Witness for C8: the frame conditions evaluated on the concrete
creation/accumulate/read rounds of the end-to-end scenario. -/
theorem C8_frame_witness :
    ((∃ x, exStM.maps = (initState 0).maps ++ [x]) ∧
      exStM.vectors = (initState 0).vectors ∧
      exStM.graphs = (initState 0).graphs ∧
      exStM.matrices = (initState 0).matrices) ∧
    (exStV.maps = exStM.maps ∧ (∃ x, exStV.vectors = exStM.vectors ++ [x]) ∧
      exStV.graphs = exStM.graphs ∧ exStV.matrices = exStM.matrices) ∧
    (exStG.maps = exStM.maps ∧ exStG.vectors = exStM.vectors ∧
      (∃ x, exStG.graphs = exStM.graphs ++ [x]) ∧
      exStG.matrices = exStM.matrices) ∧
    (exStX.maps = exStG.maps ∧ exStX.vectors = exStG.vectors ∧
      exStX.graphs = exStG.graphs ∧
      (∃ x, exStX.matrices = exStG.matrices ++ [x])) ∧
    (exStA.maps = exStV.maps ∧ exStA.vectors = exStV.vectors ∧
      exStA.graphs = exStV.graphs ∧ exStA.matrices = exStV.matrices) ∧
    (exStA = exStA) :=
  ⟨C8_frame.1 4 2 [0, 1] (initState 0) exStM _ rfl,
   C8_frame.2.1 0 exStM exStV _ rfl,
   C8_frame.2.2.1 0 [1, 1] [2, 3] exStM exStG _ rfl,
   C8_frame.2.2.2.1 0 exStG exStX _ rfl,
   C8_frame.2.2.2.2.1 0 0 1 [0] [5] exStV exStA _ rfl,
   C8_frame.2.2.2.2.2 0 exStA exStA _ rfl⟩

/-- C10: a vector freshly created by CreateVector is all zeros: a ReadVector
issued on it before any accumulation gathers, from this worker, a
contribution of zeros whose length is the worker's share of the map's index
space. -/
theorem C10_fresh_vector_zero :
    ∀ (st : St) (imap : Int) (m : MapObj), resolve st.maps imap = .ok m →
      ∃ st1 tr1, new_vector imap st = .ok (st1, tr1) ∧
        get_vector (Int.ofNat st.vectors.length) st1 =
          .ok (st1, [.bcastIn .handle 1,
                     .gathervOut .scalar (List.replicate m.elems.length 0)]) := by
  intro st imap m hm
  refine ⟨_, _, new_vector_eq_ok hm, ?_⟩
  have hr : resolve (st.vectors ++ [st.vecStore.length])
      (Int.ofNat st.vectors.length) = .ok st.vecStore.length :=
    resolve_append_length _ _
  rw [get_vector_eq_ok hr]
  rw [getD_append_length]

/-- Witness for C10: reading the freshly created vector on the concrete
two-element map gathers `[0, 0]`. -/
theorem C10_fresh_vector_zero_witness :
    ∃ st1 tr1, new_vector 0 exStM = .ok (st1, tr1) ∧
      get_vector (Int.ofNat exStM.vectors.length) st1 =
        .ok (st1, [.bcastIn .handle 1,
                   .gathervOut .scalar (List.replicate exMap.elems.length 0)]) :=
  C10_fresh_vector_zero exStM 0 exMap rfl

/-- The state with one more vector appended: registry entry points at a new
heap cell holding `w`.  `new_vector` produces exactly this shape, and the
accumulate/read rounds on the newest vector stay within it. -/
def pushVec (st : St) (w : VecObj) : St :=
  { st with
      vectors := st.vectors ++ [st.vecStore.length]
      vecStore := st.vecStore ++ [w] }

theorem new_vector_pushVec {imap : Int} {st : St} {m : MapObj}
    (hm : resolve st.maps imap = .ok m) :
    new_vector imap st = .ok
      (pushVec st ⟨m.elems, List.replicate m.elems.length 0⟩,
       [.bcastIn .handle 1, .gatherOut .handle [Int.ofNat st.vectors.length]]) :=
  new_vector_eq_ok hm

theorem add_evec_pushVec (st : St) (w w' : VecObj) (i : Int) (v : ℚ)
    (hw : sumIntoGlobalValue w i v = w') :
    add_evec st.myrank (Int.ofNat st.vectors.length) 1 [i] [v] (pushVec st w) =
      .ok (pushVec st w',
        [.bcastIn .size 1, .recvIn .handle 1, .recvIn .size 1,
         .recvIn .globalIdx 1, .recvIn .scalar 1]) := by
  have hr : resolve (pushVec st w).vectors (Int.ofNat st.vectors.length) =
      .ok st.vecStore.length := resolve_append_length _ _
  rw [add_evec_eq_target_ok (show st.myrank = (pushVec st w).myrank from rfl) hr]
  simp only [pushVec]
  rw [getD_append_length]
  simp [set_append_length, hw]

theorem get_vector_pushVec (st : St) (w : VecObj) :
    get_vector (Int.ofNat st.vectors.length) (pushVec st w) =
      .ok (pushVec st w, [.bcastIn .handle 1, .gathervOut .scalar w.data]) := by
  have hr : resolve (pushVec st w).vectors (Int.ofNat st.vectors.length) =
      .ok st.vecStore.length := resolve_append_length _ _
  rw [get_vector_eq_ok hr]
  simp only [pushVec]
  rw [getD_append_length]

theorem sumInto_at (elems : List Int) (data : List ℚ) (p : Nat) (i : Int)
    (v : ℚ) (hfind : getLocalElement elems i = some p) :
    sumIntoGlobalValue ⟨elems, data⟩ i v =
      ⟨elems, data.set p (data.getD p 0 + v)⟩ := by
  simp [sumIntoGlobalValue, hfind]

/-- C6: round trip of accumulate and read.  Create a vector from a map,
accumulate value `v` at a global index `i` this worker owns at local
position `p`, read the vector back: this worker's gathered contribution has
`v` at position `p` and `0` everywhere else; a further accumulation of `v2`
at `i` yields `v + v2` there (sum-into, not overwrite); and any worker whose
rank differs from the broadcast target returns from the round with its state
exactly unchanged, so its contribution is unaffected. -/
theorem C6_roundtrip :
    ∀ (st : St) (imap : Int) (m : MapObj) (p : Nat) (v v2 : ℚ),
      resolve st.maps imap = .ok m →
      ∀ (hp : p < m.elems.length),
      getLocalElement m.elems (m.elems.get ⟨p, hp⟩) = some p →
      ∃ st1 tr1 st2 tr2 out,
        new_vector imap st = .ok (st1, tr1) ∧
        add_evec st.myrank (Int.ofNat st.vectors.length) 1
          [m.elems.get ⟨p, hp⟩] [v] st1 = .ok (st2, tr2) ∧
        get_vector (Int.ofNat st.vectors.length) st2 =
          .ok (st2, [.bcastIn .handle 1, .gathervOut .scalar out]) ∧
        out.length = m.elems.length ∧
        out.getD p 0 = v ∧
        (∀ q, q < m.elems.length → q ≠ p → out.getD q 0 = 0) ∧
        (∃ st3 tr3 out2,
          add_evec st.myrank (Int.ofNat st.vectors.length) 1
            [m.elems.get ⟨p, hp⟩] [v2] st2 = .ok (st3, tr3) ∧
          get_vector (Int.ofNat st.vectors.length) st3 =
            .ok (st3, [.bcastIn .handle 1, .gathervOut .scalar out2]) ∧
          out2.getD p 0 = v + v2) ∧
        (∀ stW : St, stW.myrank ≠ st.myrank →
          ∀ (iv : Int) (nit : Nat) (idxs : List Int) (vs : List ℚ),
            add_evec st.myrank iv nit idxs vs stW =
              .ok (stW, [.bcastIn .size 1])) := by
  intro st imap m p v v2 hm hp hfind
  have hlen : p < (List.replicate m.elems.length (0 : ℚ)).length := by
    simpa using hp
  have e0 : (List.replicate m.elems.length (0 : ℚ)).getD p 0 = 0 :=
    getD_replicate _ _ _ _ hp
  have hw01 : sumIntoGlobalValue ⟨m.elems, List.replicate m.elems.length 0⟩
      (m.elems.get ⟨p, hp⟩) v =
      ⟨m.elems, (List.replicate m.elems.length 0).set p v⟩ := by
    rw [sumInto_at _ _ p _ v hfind, e0, zero_add]
  have e1 : ((List.replicate m.elems.length (0 : ℚ)).set p v).getD p 0 = v :=
    getD_set_self _ _ _ _ hlen
  have hw12 : sumIntoGlobalValue
      ⟨m.elems, (List.replicate m.elems.length 0).set p v⟩
      (m.elems.get ⟨p, hp⟩) v2 =
      ⟨m.elems, ((List.replicate m.elems.length 0).set p v).set p (v + v2)⟩ := by
    rw [sumInto_at _ _ p _ v2 hfind, e1]
  refine ⟨_, _, _, _, _, new_vector_pushVec hm,
    add_evec_pushVec st _ _ _ v hw01, get_vector_pushVec st _,
    by simp, e1, ?_, ?_, ?_⟩
  · intro q hq hqp
    rw [getD_set_ne _ _ _ _ _ hqp]
    exact getD_replicate _ _ _ _ hq
  · refine ⟨_, _, _, add_evec_pushVec st _ _ _ v2 hw12,
      get_vector_pushVec st _, ?_⟩
    exact getD_set_self _ _ _ _ (by simpa using hp)
  · intro stW hne iv nit idxs vs
    exact add_evec_eq_other (fun hh => hne hh.symm)

/-- Witness for C6: the round trip on the concrete map `[0, 1]` with
`v = 5`, `v2 = 2` at local position 0. -/
theorem C6_roundtrip_witness :
    ∃ st1 tr1 st2 tr2 out,
      new_vector 0 exStM = .ok (st1, tr1) ∧
      add_evec exStM.myrank (Int.ofNat exStM.vectors.length) 1
        [exMap.elems.get ⟨0, by decide⟩] [5] st1 = .ok (st2, tr2) ∧
      get_vector (Int.ofNat exStM.vectors.length) st2 =
        .ok (st2, [.bcastIn .handle 1, .gathervOut .scalar out]) ∧
      out.length = exMap.elems.length ∧
      out.getD 0 0 = 5 ∧
      (∀ q, q < exMap.elems.length → q ≠ 0 → out.getD q 0 = 0) ∧
      (∃ st3 tr3 out2,
        add_evec exStM.myrank (Int.ofNat exStM.vectors.length) 1
          [exMap.elems.get ⟨0, by decide⟩] [2] st2 = .ok (st3, tr3) ∧
        get_vector (Int.ofNat exStM.vectors.length) st3 =
          .ok (st3, [.bcastIn .handle 1, .gathervOut .scalar out2]) ∧
        out2.getD 0 0 = 5 + 2) ∧
      (∀ stW : St, stW.myrank ≠ exStM.myrank →
        ∀ (iv : Int) (nit : Nat) (idxs : List Int) (vs : List ℚ),
          add_evec exStM.myrank iv nit idxs vs stW =
            .ok (stW, [.bcastIn .size 1])) :=
  C6_roundtrip exStM 0 exMap 0 5 2 rfl (by decide) rfl

/-- The map of the spec's end-to-end scenario as seen by worker 1: size 4,
locally owned global rows 2 and 3. -/
def exMapW1 : MapObj := ⟨4, [2, 3]⟩

/-- Worker-1 state holding just that map. -/
def exStW1 : St := { initState 1 with maps := [exMapW1] }

/-- The graph `new_graph 0 [1,1] [0,1]` builds on worker 1. -/
def exBugGraph : GraphObj := ⟨[2, 3], [1, 1], [(0, [0]), (1, [1])], true⟩

/-- C4, evaluated at the failing input: on worker 1, whose map owns global
rows 2 and 3, a CreateGraph round consumes exactly 2 per-row counts and a
flat buffer of length 2 and slices it per row in row order, sealing the
graph before storing it — but the `insertGlobalIndices` calls target global
rows 0 and 1 (the loop counter `irow`), neither of which is a locally owned
row of the map, contradicting the claim's "inserts into each locally owned
row of the map". -/
theorem C4_graph_rows :
    new_graph 0 [1, 1] [0, 1] exStW1 = .ok
      ({ exStW1 with graphs := [exBugGraph] },
       [.bcastIn .handle 1, .scattervIn .size 2, .scattervIn .globalIdx 2,
        .gatherOut .handle [Int.ofNat 0]]) ∧
    exBugGraph.rows.map Prod.fst = [0, 1] ∧
    exMapW1.elems = [2, 3] ∧
    (∀ r ∈ exBugGraph.rows.map Prod.fst, r ∉ exMapW1.elems) ∧
    exBugGraph.fillCompleted = true :=
  ⟨rfl, rfl, rfl, by decide, rfl⟩

/-- C9, evaluated on the LP64 build the source targets: the widths `info`
prints for the handle, local-index, global-index and scalar types match the
MPI datatypes the handlers exchange those kinds with, but the `size` kind
does not: `info` prints `sizeof(size_t) << 3 = 64` while every size field on
the wire uses `MPI_SIZE = MPI::INT`, 32 bits (and the receiving variables
are 64-bit `size_t`, so only half of each such variable is ever written).
The final conjunct exhibits size fields actually exchanged by `new_map` with
the 32-bit wire kind. -/
theorem C9_width_mismatch :
    infoWidth .handle = some (mpiWidth .handle) ∧
    infoWidth .localIdx = some (mpiWidth .localIdx) ∧
    infoWidth .globalIdx = some (mpiWidth .globalIdx) ∧
    infoWidth .scalar = some (mpiWidth .scalar) ∧
    infoWidth .size = some 64 ∧
    mpiWidth .size = 32 ∧
    infoWidth .size ≠ some (mpiWidth .size) ∧
    new_map 4 2 [2, 3] exStW1 = .ok
      ({ exStW1 with maps := [exMapW1, ⟨4, [2, 3]⟩] },
       [.bcastIn .size 1, .scatterIn .size 1, .scattervIn .globalIdx 2,
        .gatherOut .handle [Int.ofNat 1]]) :=
  ⟨rfl, rfl, rfl, rfl, rfl, rfl, by decide, rfl⟩
